import Mathlib

/-!
Shallow embedding of the heuristic field-classification and
normalization/calculation engine of the product-information repository.

The embedding models the TypeScript sources:
* `src/unnamed/part_000` — column classifiers (`findBrandKey`, `findImageKey`),
  the URL extractor (`extractFirstImageUrl`) and the value normalizers
  (`parseCurrency`, `parseWeightToGrams`);
* `src/components/ProductModal.tsx` — the profit calculator
  (`calculateProfit`, lines 151–225).

JavaScript strings are modelled as `List Char`; JavaScript numbers as exact
rationals (`ℚ`), with `Option ℚ` where `NaN` can flow (`none` = `NaN`);
scalar cell values as the inductive `Scalar`.  All definitions are
computable so that concrete runs can be settled by `decide`.
-/

set_option maxHeartbeats 1000000
set_option maxRecDepth 4000

namespace ECommEngine

/-- Whitespace characters removed by JavaScript `String.prototype.trim`
(the common ones that can occur in cell data). -/
def isWsChar (c : Char) : Bool :=
  c = ' ' || c = '\n' || c = '\r' || c = '\t' || c = '\x0b' || c = '\x0c'

/-- JavaScript `trim`: drop whitespace from both ends. -/
def jsTrim (cs : List Char) : List Char :=
  ((cs.dropWhile isWsChar).reverse.dropWhile isWsChar).reverse

/-- JavaScript `toLowerCase` restricted to ASCII letters (the only letters
the keyword tables use; CJK characters are unaffected, as in JS). -/
def lowerL (cs : List Char) : List Char := cs.map Char.toLower

/-- `startsWithL nd hay`: `nd` is an initial segment of `hay`. -/
def startsWithL : List Char → List Char → Bool
  | [], _ => true
  | _ :: _, [] => false
  | a :: as, b :: bs => a == b && startsWithL as bs

/-- JavaScript `String.prototype.includes`: `nd` occurs somewhere in `hay`. -/
def containsL (hay nd : List Char) : Bool :=
  (List.range (hay.length + 1)).any (fun i => startsWithL nd (hay.drop i))

/-- `endsWithL nd hay`: `hay` ends with `nd`. -/
def endsWithL (nd hay : List Char) : Bool :=
  startsWithL nd.reverse hay.reverse

/-- Decimal rendering of a rational, used to model JavaScript
number-to-string conversion for the values that occur in cell data
(integers and finite decimals print exactly). -/
def qToString (q : ℚ) : String :=
  if q.den = 1 then toString q.num
  else
    match (List.range 30).find? (fun k => (q * (10 : ℚ) ^ k).den = 1) with
    | some k =>
        let scaled := (q * (10 : ℚ) ^ k).num
        let sign := if scaled < 0 then "-" else ""
        let a := scaled.natAbs
        let fpStr := toString (a % 10 ^ k)
        let pad := String.mk (List.replicate (k - fpStr.length) '0')
        sign ++ toString (a / 10 ^ k) ++ "." ++ pad ++ fpStr
    | none => toString q.num ++ "/" ++ toString q.den

/-- A JavaScript scalar cell value: string, number, boolean, `null` or
`undefined` (absent key). -/
inductive Scalar where
  | str (s : String)
  | num (q : ℚ)
  | boolv (b : Bool)
  | null
  | absent
deriving DecidableEq

/-- JavaScript `String(value)`. -/
def toStr : Scalar → String
  | .str s => s
  | .num q => qToString q
  | .boolv true => "true"
  | .boolv false => "false"
  | .null => "null"
  | .absent => "undefined"

/-- JavaScript truthiness of a scalar (`!value` is its negation). -/
def truthy : Scalar → Bool
  | .str s => !s.data.isEmpty
  | .num q => if q = 0 then false else true
  | .boolv b => b
  | .null => false
  | .absent => false

/-! ## ValueNormalizer (`src/unnamed/part_000`, lines 297–332) -/

/-- A character kept by `parseCurrency`'s cleanup and matched by the
number-token regex `[0-9.]+` of `parseWeightToGrams`. -/
def isDigitOrDot (c : Char) : Bool := c.isDigit || c = '.'

/-- Value of a digit string read in base 10. -/
def digitsToNat (ds : List Char) : Nat :=
  ds.foldl (fun a c => a * 10 + (c.toNat - '0'.toNat)) 0

/-- JavaScript `parseFloat` on a string made of digits and dots: parse the
longest valid decimal prefix; `none` models `NaN` (no leading digits and no
fractional digits). -/
def parseDecimalToken (cs : List Char) : Option ℚ :=
  let ip := cs.takeWhile Char.isDigit
  let rest := cs.dropWhile Char.isDigit
  match rest with
  | '.' :: cs2 =>
      let fp := cs2.takeWhile Char.isDigit
      if ip.isEmpty && fp.isEmpty then none
      else some ((digitsToNat ip : ℚ) + (digitsToNat fp : ℚ) / (10 : ℚ) ^ fp.length)
  | _ => if ip.isEmpty then none else some (digitsToNat ip)

/-- `parseCurrency` (part_000 lines 297–304): stringify, strip every
character but digits and dots, `parseFloat`, and map `NaN` to `0`. -/
def parseCurrency (v : Scalar) : ℚ :=
  if truthy v = false then 0
  else
    let cleaned := (toStr v).data.filter isDigitOrDot
    match parseDecimalToken cleaned with
    | none => 0
    | some q => q

/-- First maximal run matching `[0-9.]+`, as in `str.match(/[0-9.]+/)`. -/
def firstNumToken (cs : List Char) : Option (List Char) :=
  match cs.dropWhile (fun c => !isDigitOrDot c) with
  | [] => none
  | c :: rest => some ((c :: rest).takeWhile isDigitOrDot)

/-- `parseWeightToGrams` (part_000 lines 310–332).  The result is an
`Option ℚ` because the JS code feeds `parseFloat` of the matched token into
arithmetic without an `isNaN` guard, so `NaN` (here `none`) can escape. -/
def parseWeightToGrams (v : Scalar) : Option ℚ :=
  if truthy v = false then some 0
  else
    let s := jsTrim (lowerL (toStr v).data)
    match firstNumToken s with
    | none => some 0
    | some tk =>
        let n := parseDecimalToken tk
        if containsL s ("kg".data) || containsL s ("公斤".data) then
          n.map (fun q => q * 1000)
        else if containsL s ("斤".data) then
          n.map (fun q => q * 500)
        else if !containsL s (['g']) && !containsL s ("斤".data) then
          match n with
          | none => none
          | some q => some (if q < 10 then q * 1000 else q)
        else n

/-- The kg branch of `parseWeightToGrams`, as a standalone function of the
raw input string: numeric token times 1000. -/
def kgBranch (s : String) : Option ℚ :=
  match firstNumToken (jsTrim (lowerL s.data)) with
  | none => some 0
  | some tk => (parseDecimalToken tk).map (fun q => q * 1000)

/-- The 斤 branch of `parseWeightToGrams`: numeric token times 500. -/
def jinBranch (s : String) : Option ℚ :=
  match firstNumToken (jsTrim (lowerL s.data)) with
  | none => some 0
  | some tk => (parseDecimalToken tk).map (fun q => q * 500)

/-- The magnitude-heuristic branch of `parseWeightToGrams`: values below 10
are taken as kilograms (times 1000), larger values pass unchanged. -/
def heuristicBranch (s : String) : Option ℚ :=
  match firstNumToken (jsTrim (lowerL s.data)) with
  | none => some 0
  | some tk =>
      match parseDecimalToken tk with
      | none => none
      | some q => some (if q < 10 then q * 1000 else q)

/-! ## UrlExtractor (`src/unnamed/part_000`, lines 170–194) -/

/-- Separator class of the split regex `[,;| \n\r\t]+`. -/
def isSepChar (c : Char) : Bool :=
  c = ',' || c = ';' || c = '|' || c = ' ' || c = '\n' || c = '\r' || c = '\t'

/-- Split at every single separator character (no run collapsing yet). -/
def splitAll : List Char → List (List Char)
  | [] => [[]]
  | c :: cs =>
      if isSepChar c then [] :: splitAll cs
      else
        match splitAll cs with
        | t :: ts => (c :: t) :: ts
        | [] => [[c]]

/-- Drop the empty tokens produced inside separator runs (JavaScript
`split` on a `+` regex collapses runs; leading/trailing empties remain). -/
def collapseMid : List (List Char) → List (List Char)
  | [] => []
  | [t] => [t]
  | t :: ts => if t.isEmpty then collapseMid ts else t :: collapseMid ts

/-- JavaScript `str.split(/[,;| \n\r\t]+/)`. -/
def splitSep (cs : List Char) : List (List Char) :=
  match splitAll cs with
  | [] => []
  | t :: ts => t :: collapseMid ts

/-- Regex `^https?:\/\/.+`. -/
def httpTok (p : List Char) : Bool :=
  (startsWithL ("http://".data) p && decide (7 < p.length)) ||
  (startsWithL ("https://".data) p && decide (8 < p.length))

/-- Regex `^data:image\/.+`. -/
def dataImgTok (p : List Char) : Bool :=
  startsWithL ("data:image/".data) p && decide (11 < p.length)

/-- Extension alternatives of `extractFirstImageUrl`'s regex
`\.(jpg|jpeg|png|gif|webp|bmp|svg)$`. -/
def imgExts1 : List (List Char) :=
  ["jpg", "jpeg", "png", "gif", "webp", "bmp", "svg"].map String.data

/-- Extension alternatives of `findImageKey`'s content regex
`\.(jpg|jpeg|png|gif|webp|bmp|svg|tiff|ico)(\?.*)?$`. -/
def imgExts2 : List (List Char) :=
  ["jpg", "jpeg", "png", "gif", "webp", "bmp", "svg", "tiff", "ico"].map String.data

/-- Case-insensitive test for `\.(jpg|jpeg|png|gif|webp|bmp|svg)$`. -/
def endsWithImgExt (p : List Char) : Bool :=
  imgExts1.any (fun e => endsWithL ('.' :: e) (lowerL p))

/-- `p.replace(/['"]/g, '')`: delete every single/double quote. -/
def stripQuotes (p : List Char) : List Char :=
  p.filter (fun c => !(c = '\'' || c = '"'))

/-- Case-insensitive test for `\.(jpg|jpeg|png|gif|webp|bmp|svg|tiff|ico)(\?.*)?$`:
a dot-extension occurrence followed by end of string or a `?`. -/
def hasImgExtQ (u : List Char) : Bool :=
  let lu := lowerL u
  (List.range (lu.length + 1)).any (fun i =>
    imgExts2.any (fun e =>
      startsWithL ('.' :: e) (lu.drop i) &&
      (((lu.drop i).drop (e.length + 1)).isEmpty ||
        ((lu.drop i).drop (e.length + 1)).head? == some '?')))

/-- The token loop of `extractFirstImageUrl`: first token matching the
http/data-URI patterns (quotes stripped) or ending in an image extension. -/
def scanParts : List (List Char) → Option (List Char)
  | [] => none
  | p0 :: rest =>
      let p := jsTrim p0
      if httpTok p || dataImgTok p then some (stripQuotes p)
      else if endsWithImgExt p then some p
      else scanParts rest

/-- `extractFirstImageUrl` (part_000 lines 170–194). -/
def extractFirstImageUrl (v : Scalar) : Option (List Char) :=
  if truthy v = false then none
  else
    let s := jsTrim (toStr v).data
    if s.isEmpty then none
    else scanParts (splitSep s)

/-! ## ColumnClassifier (`src/unnamed/part_000`) -/

/-- Brand keyword table of `findBrandKey` (part_000 lines 149–152). -/
def brandCandidates : List String :=
  ["brand", "vendor", "manufacturer", "make",
   "品牌", "厂商", "厂家", "商标", "牌子", "分类", "系列", "category"]

/-- Exact pass predicate: `candidates.includes(h.toLowerCase().trim())`. -/
def isExactBrand (h : String) : Bool :=
  brandCandidates.any (fun c => jsTrim (lowerL h.data) == c.data)

/-- Partial pass predicate: some candidate occurs in `h.toLowerCase()`. -/
def isPartialBrand (h : String) : Bool :=
  brandCandidates.any (fun c => containsL (lowerL h.data) c.data)

/-- `findBrandKey` (part_000 lines 148–161): exact pass first, then
partial pass, `none` if both fail. -/
def findBrandKey (hs : List String) : Option String :=
  match hs.find? isExactBrand with
  | some h => some h
  | none => hs.find? isPartialBrand

/-- A product row: ordered mapping from header to scalar cell value. -/
abbrev ProductRow := List (String × Scalar)

/-- `rowData[key]`: the value at a header, `undefined` when absent. -/
def getVal (row : ProductRow) (k : String) : Scalar :=
  match row.find? (fun e => e.1 == k) with
  | some e => e.2
  | none => .absent

/-- One scored candidate of `findImageKey`: `{ key, score, val }`. -/
structure Cand where
  key : String
  score : Int
  val : List Char

/-- Strong header keywords of `findImageKey` (+20). -/
def strongImgKeys : List String :=
  ["image", "img", "pic", "photo", "picture", "thumbnail", "asset", "gallery",
   "图", "相片", "封面", "展示", "照片", "外观", "预览"]

/-- Compound header keywords of `findImageKey` (+30). -/
def compoundImgKeys : List String :=
  ["主图", "产品图", "商品图片", "图片链接", "图片地址", "宝贝图片", "款式图"]

/-- Weak link keywords of `findImageKey` (+5). -/
def weakLinkKeys : List String := ["url", "link", "链接", "地址", "src", "href"]

/-- Image-path hints searched in cell content (+10). -/
def pathHintKeys : List String := ["/images/", "/img/", "photos", "uploads"]

/-- Currency symbols of the `^[¥$￥€£]` penalty (−50). -/
def currencyChars : List Char := ['¥', '$', '￥', '€', '£']

/-- Content-analysis part of a candidate's score (part_000 lines 219–229):
+20 for an extractable URL, +30 more for a recognized image extension,
+40 more for a `data:image` payload. -/
def contentScore (val : List Char) : Int :=
  match extractFirstImageUrl (.str (String.mk val)) with
  | none => 0
  | some u =>
      20 + (if hasImgExtQ u then 30 else 0) +
        (if containsL u ("data:image".data) then 40 else 0)

/-- Build the scored candidate for one header (part_000 lines 202–245). -/
def mkCand (row : ProductRow) (key : String) : Cand :=
  let lk := lowerL key.data
  let rawVal := getVal row key
  let val := jsTrim (toStr (if truthy rawVal then rawVal else .str "")).data
  let eu := extractFirstImageUrl (.str (String.mk val))
  let score : Int :=
    (if strongImgKeys.any (fun k => containsL lk k.data) then 20 else 0) +
    (if compoundImgKeys.any (fun k => lk == k.data || containsL lk k.data) then 30 else 0) +
    (if weakLinkKeys.any (fun k => containsL lk k.data) then 5 else 0) +
    contentScore val +
    (if pathHintKeys.any (fun k => containsL val k.data) then 10 else 0) +
    (if (val.contains '\n' || val.contains '\r') && eu.isNone then -100 else 0) +
    (if (match val.head? with
         | some c => currencyChars.contains c
         | none => false) then -50 else 0) +
    (if decide (val.length < 5) && !val.contains '.' then -10 else 0)
  ⟨key, score, val⟩

/-- All scored candidates, in original header order. -/
def candsOf (row : ProductRow) (hs : List String) : List Cand :=
  hs.map (mkCand row)

/-- Insertion step of a stable descending sort by score: a new element goes
after every existing element of greater-or-equal score, as JavaScript's
stable `sort((a, b) => b.score - a.score)` does. -/
def insertCand (c : Cand) : List Cand → List Cand
  | [] => [c]
  | d :: ds => if c.score ≤ d.score then d :: insertCand c ds else c :: d :: ds

/-- Stable sort of the candidates by descending score. -/
def sortCands (l : List Cand) : List Cand :=
  l.foldl (fun acc c => insertCand c acc) []

/-- Truthiness of `extractFirstImageUrl(c.val)` (the fallback predicate). -/
def extractTruthy (c : Cand) : Bool :=
  match extractFirstImageUrl (.str (String.mk c.val)) with
  | some u => !u.isEmpty
  | none => false

/-- The fallback of `findImageKey` (part_000 lines 259–260): first candidate
of the (sorted, mutated-in-place) array whose value yields a URL. -/
def fallbackKey (sorted : List Cand) : Option String :=
  (sorted.find? extractTruthy).map Cand.key

/-- `findImageKey` (part_000 lines 199–263).  Note that the JS `sort` is
in place, so the fallback `find` runs over the *sorted* array. -/
def findImageKey (hs : List String) (row : ProductRow) : Option String :=
  if hs.isEmpty then none
  else
    match (sortCands (candsOf row hs)).head? with
    | some best =>
        if best.score > 10 then some best.key
        else fallbackKey (sortCands (candsOf row hs))
    | none => fallbackKey (sortCands (candsOf row hs))

/-! ## ProfitCalculator (`src/components/ProductModal.tsx`, lines 151–225) -/

/-- Shipping fee step function (ProductModal lines 157–162). -/
def shippingFee (w : ℚ) : ℚ :=
  if w > 0 then (if w < 500 then 1.8 else if w ≤ 1000 then 2.2 else 2.6) else 0

/-- Modelled from the spec's words (§4.5 step 1), for comparison with the
code's `shippingFee`: ≤500→1.8, ≤1000→2.2, ≤1500→2.6, ≤2000→2.9, else 3.6. -/
def shippingFeeSpec (w : ℚ) : ℚ :=
  if w ≤ 500 then 1.8 else if w ≤ 1000 then 2.2
  else if w ≤ 1500 then 2.6 else if w ≤ 2000 then 2.9 else 3.6

/-- Fixed operations fee (ProductModal line 165). -/
def opFee : ℚ := 0.7

/-- Fixed box fee (ProductModal line 166). -/
def boxFee : ℚ := 0.45

/-- Platform fee: 5% of price (ProductModal line 169). -/
def platformFee (p : ℚ) : ℚ := p * 0.05

/-- Tax fee: 8% of price (ProductModal line 170). -/
def taxFee (p : ℚ) : ℚ := p * 0.08

/-- `totalCost = c + platformFee + taxFee + opFee + boxFee + shippingFee`. -/
def totalCost (p c w : ℚ) : ℚ :=
  c + (platformFee p + taxFee p + opFee + boxFee + shippingFee w)

/-- Gross profit before returns. -/
def grossProfit (p c w : ℚ) : ℚ := p - totalCost p c w

/-- Gross margin in percent, guarded against `price = 0`. -/
def grossMargin (p c w : ℚ) : ℚ :=
  if p > 0 then grossProfit p c w / p * 100 else 0

/-- Return on investment in percent, guarded against zero total cost. -/
def roi (p c w : ℚ) : ℚ :=
  if totalCost p c w > 0 then grossProfit p c w / totalCost p c w * 100 else 0

/-- Fixed return rate (ProductModal line 191). -/
def returnRate : ℚ := 0.10

/-- Success rate `1 - returnRate`. -/
def successRate : ℚ := 1 - returnRate

/-- Expected revenue per unit under the return model. -/
def weightedRevenue (p : ℚ) : ℚ := p * successRate

/-- Costs paid regardless of a return: shipping, box, operations. -/
def sunkCosts (w : ℚ) : ℚ := shippingFee w + boxFee + opFee

/-- Costs paid only on a successful sale: platform fee and tax. -/
def successCosts (p : ℚ) : ℚ := platformFee p + taxFee p

/-- Expected cost per unit under the return model (ProductModal line 205). -/
def weightedCost (p c w : ℚ) : ℚ :=
  c * successRate + sunkCosts w * 1.0 + successCosts p * successRate

/-- Net (post-return) profit per unit. -/
def netProfit (p c w : ℚ) : ℚ := weightedRevenue p - weightedCost p c w

/-- Net margin in percent, guarded against non-positive weighted revenue. -/
def netMargin (p c w : ℚ) : ℚ :=
  if weightedRevenue p > 0 then netProfit p c w / weightedRevenue p * 100 else 0

/-- Result record of `calculateProfit` (ProductModal lines 212–224). -/
structure CalcResult where
  shippingFee : ℚ
  platformFee : ℚ
  taxFee : ℚ
  opFee : ℚ
  boxFee : ℚ
  totalCost : ℚ
  grossProfit : ℚ
  grossMargin : ℚ
  roi : ℚ
  netProfit : ℚ
  netMargin : ℚ
deriving DecidableEq

/-- `calculateProfit` (ProductModal lines 151–225) as a function of the
parsed price, cost and weight-in-grams inputs. -/
def calculateProfit (p c w : ℚ) : CalcResult :=
  ⟨shippingFee w, platformFee p, taxFee p, opFee, boxFee, totalCost p c w,
   grossProfit p c w, grossMargin p c w, roi p c w, netProfit p c w,
   netMargin p c w⟩

/-! ## Concrete rows used by counterexamples and witnesses -/

/-- Two headers whose values both yield extractable URLs while every score
stays at or below the threshold (currency-prefix penalty −50). -/
def rowC3 : ProductRow :=
  [("A", .str "¥2 http://e.com/b"), ("B", .str "¥1 http://e.com/a.jpg")]

/-- A row with one strong image column. -/
def rowC10 : ProductRow := [("图片链接", .str "http://x.com/a.jpg")]

/-! ## Helper lemmas -/

theorem find?_isSome_of_mem {α : Type} (p : α → Bool) {l : List α} {x : α}
    (hx : x ∈ l) (hp : p x = true) : (l.find? p).isSome = true := by
  induction l with
  | nil => cases hx
  | cons a t ih =>
      by_cases ha : p a
      · rw [List.find?_cons_of_pos _ ha]; rfl
      · rcases List.mem_cons.mp hx with h | h
        · subst h; exact absurd hp (by simpa using ha)
        · rw [List.find?_cons_of_neg _ (by simpa using ha)]; exact ih h

theorem mem_insertCand {x c : Cand} :
    ∀ {l : List Cand}, x ∈ insertCand c l ↔ x = c ∨ x ∈ l := by
  intro l
  induction l with
  | nil => simp [insertCand]
  | cons d ds ih =>
      unfold insertCand
      by_cases h : c.score ≤ d.score
      · rw [if_pos h]
        rw [List.mem_cons, ih, List.mem_cons]
        tauto
      · rw [if_neg h]
        exact List.mem_cons.trans (by rw [List.mem_cons])

theorem mem_sortCands_aux (l : List Cand) :
    ∀ (acc : List Cand) (x : Cand),
      (x ∈ List.foldl (fun acc c => insertCand c acc) acc l ↔ x ∈ acc ∨ x ∈ l) := by
  induction l with
  | nil => intro acc x; simp
  | cons c cs ih =>
      intro acc x
      rw [List.foldl_cons, ih, mem_insertCand]
      simp only [List.mem_cons]
      tauto

theorem mem_sortCands {x : Cand} {l : List Cand} : x ∈ sortCands l ↔ x ∈ l := by
  unfold sortCands
  rw [mem_sortCands_aux]
  simp

theorem key_mem_of_mem_candsOf {row : ProductRow} {hs : List String} {c : Cand}
    (h : c ∈ candsOf row hs) : c.key ∈ hs := by
  unfold candsOf at h
  rcases List.mem_map.mp h with ⟨a, ha, rfl⟩
  exact ha

theorem mem_of_head?_cand {l : List Cand} {b : Cand} (h : l.head? = some b) :
    b ∈ l := by
  cases l with
  | nil => cases h
  | cons a t =>
      rw [List.head?_cons] at h
      injection h with h
      exact h ▸ List.mem_cons_self a t

theorem fallbackKey_key_mem {row : ProductRow} {hs : List String} {k : String}
    (h : fallbackKey (sortCands (candsOf row hs)) = some k) : k ∈ hs := by
  unfold fallbackKey at h
  rcases Option.map_eq_some'.mp h with ⟨c, hc, rfl⟩
  exact key_mem_of_mem_candsOf (mem_sortCands.mp (List.mem_of_find?_eq_some hc))

/-! ## Claim theorems -/

/-- C1 (counterexample): at price=100, cost=20, weightGrams=300 the code's
tax fee is `100 × 0.08 = 8`, strictly above the `5` the claim states, so
the claimed result tuple (taxFee=5, comprehensiveCost=33.95, …) is false. -/
theorem calc_c1_counterexample :
    (calculateProfit 100 20 300).taxFee = 8 ∧ (5 : ℚ) < 8 := by
  constructor
  · norm_num [calculateProfit, taxFee]
  · norm_num

/-- C1 (amended): at price=100, cost=20, weightGrams=300 the calculator
returns shippingFee=1.8, platformFee=5, taxFee=8, totalCost=35.95,
grossProfit=64.05, grossMargin=64.05 (percent), roi=128100/719 ≈ 178.16,
netProfit=57.35 and netMargin=1147/18 ≈ 63.72 (percent); no
investment-efficiency field exists. -/
theorem calc_c1_amended :
    (calculateProfit 100 20 300).shippingFee = 9/5 ∧
    (calculateProfit 100 20 300).platformFee = 5 ∧
    (calculateProfit 100 20 300).taxFee = 8 ∧
    (calculateProfit 100 20 300).opFee = 7/10 ∧
    (calculateProfit 100 20 300).boxFee = 9/20 ∧
    (calculateProfit 100 20 300).totalCost = 719/20 ∧
    (calculateProfit 100 20 300).grossProfit = 1281/20 ∧
    (calculateProfit 100 20 300).grossMargin = 1281/20 ∧
    (calculateProfit 100 20 300).roi = 128100/719 ∧
    (calculateProfit 100 20 300).netProfit = 1147/20 ∧
    (calculateProfit 100 20 300).netMargin = 1147/18 := by
  norm_num [calculateProfit, shippingFee, platformFee, taxFee, opFee, boxFee,
    totalCost, grossProfit, grossMargin, roi, netProfit, netMargin,
    weightedRevenue, weightedCost, sunkCosts, successCosts, successRate,
    returnRate]

/-- C2 (counterexample): the code's shipping table stops at three bands.
At 2500 g the code charges 2.6 where the claimed five-band table says 3.6,
and at exactly 500 g the code charges 2.2 where the claim says 1.8. -/
theorem shipping_c2_counterexample :
    shippingFee 2500 = 13/5 ∧ shippingFeeSpec 2500 = 18/5 ∧ (13 : ℚ)/5 < 18/5 ∧
    shippingFee 500 = 11/5 ∧ shippingFeeSpec 500 = 9/5 ∧ (9 : ℚ)/5 < 11/5 := by
  norm_num [shippingFee, shippingFeeSpec]

/-- C2 (amended): the code's shipping fee is the step function 0 for
w ≤ 0, 1.8 for 0 < w < 500, 2.2 for 500 ≤ w ≤ 1000 and 2.6 for w > 1000;
the bands are ordered, non-overlapping and exhaustive, so each weight falls
into exactly one band. -/
theorem shipping_c2_amended (w : ℚ) :
    (w ≤ 0 ∧ shippingFee w = 0) ∨
    (0 < w ∧ w < 500 ∧ shippingFee w = 9/5) ∨
    (500 ≤ w ∧ w ≤ 1000 ∧ shippingFee w = 11/5) ∨
    (1000 < w ∧ shippingFee w = 13/5) := by
  unfold shippingFee
  by_cases h0 : w > 0
  · by_cases h1 : w < 500
    · exact Or.inr (Or.inl ⟨h0, h1, by rw [if_pos h0, if_pos h1]; norm_num⟩)
    · by_cases h2 : w ≤ 1000
      · exact Or.inr (Or.inr (Or.inl ⟨le_of_not_lt h1, h2,
          by rw [if_pos h0, if_neg h1, if_pos h2]; norm_num⟩))
      · exact Or.inr (Or.inr (Or.inr ⟨lt_of_not_le h2,
          by rw [if_pos h0, if_neg h1, if_neg h2]; norm_num⟩))
  · exact Or.inl ⟨le_of_not_lt h0, by rw [if_neg h0]⟩

/-- C5 (counterexample): at price=100, cost=20, weightGrams=300 the code's
post-return margin is 1147/18 ≈ 63.72, while marginPreReturn × (1 − 10/100)
is 11529/200 = 57.645, a strictly smaller value, so the claimed identity
fails. -/
theorem netMargin_c5_counterexample :
    (calculateProfit 100 20 300).netMargin = 1147/18 ∧
    (calculateProfit 100 20 300).grossMargin * (1 - 10/100) = 11529/200 ∧
    (11529 : ℚ)/200 < 1147/18 := by
  norm_num [calculateProfit, netMargin, grossMargin, netProfit,
    weightedRevenue, weightedCost, sunkCosts, successCosts, grossProfit,
    totalCost, platformFee, taxFee, opFee, boxFee, shippingFee, successRate,
    returnRate]

/-- C5 (amended): with the fixed 10% return rate, the code's post-return
margin satisfies `netMargin = grossMargin − 100·(shippingFee+boxFee+opFee)/(9·price)`
for positive price (the sunk logistics costs are not scaled by the success
rate, so the margin does not factor as `grossMargin × 0.9`), and it is 0
for non-positive price. -/
theorem netMargin_c5_amended (p c w : ℚ) :
    (0 < p → (calculateProfit p c w).netMargin =
      (calculateProfit p c w).grossMargin -
        100 * (shippingFee w + 9/20 + 7/10) / (9 * p)) ∧
    (p ≤ 0 → (calculateProfit p c w).netMargin = 0) := by
  constructor
  · intro hp
    have h9 : (1 - (0.10 : ℚ)) = 9/10 := by norm_num
    have hwr : weightedRevenue p > 0 := by
      unfold weightedRevenue successRate returnRate
      rw [h9]
      exact mul_pos hp (by norm_num)
    show netMargin p c w = grossMargin p c w -
      100 * (shippingFee w + 9/20 + 7/10) / (9 * p)
    unfold netMargin grossMargin
    rw [if_pos hwr, if_pos hp]
    unfold netProfit weightedRevenue weightedCost sunkCosts successCosts
      grossProfit totalCost platformFee taxFee successRate returnRate opFee
      boxFee
    norm_num
    field_simp
    ring
  · intro hp
    show netMargin p c w = 0
    unfold netMargin
    have h1 : weightedRevenue p ≤ 0 := by
      unfold weightedRevenue successRate returnRate
      have h9 : (1 - (0.10 : ℚ)) = 9/10 := by norm_num
      rw [h9]
      nlinarith
    rw [if_neg (not_lt.mpr h1)]

/-- C5 (witness): the amended relation evaluated at price=100, cost=20,
weight=300 and the zero-price guard at price=0. -/
theorem netMargin_c5_witness :
    (calculateProfit 100 20 300).netMargin =
      (calculateProfit 100 20 300).grossMargin -
        100 * (shippingFee 300 + 9/20 + 7/10) / (9 * 100) ∧
    (calculateProfit 0 20 300).netMargin = 0 :=
  ⟨(netMargin_c5_amended 100 20 300).1 (by norm_num),
   (netMargin_c5_amended 0 20 300).2 (by norm_num)⟩

/-- C6 (code bug): on the input `"."` the number-token regex matches `"."`,
`parseFloat(".")` is `NaN` (modelled `none`), and `parseWeightToGrams`
returns it unguarded — unlike `parseCurrency`, which checks `isNaN` and
yields the documented default 0 on the very same input.  So the normalizer
does not always return a finite number. -/
theorem weight_c6_nan_bug :
    parseCurrency (.str ".") = 0 ∧ parseWeightToGrams (.str ".") = none :=
  ⟨rfl, rfl⟩

/-- C7: the calculator's divisions are guarded: price 0 (indeed any
non-positive price) yields grossMargin 0 and netMargin 0, and a
non-positive total cost yields roi 0; degenerate inputs produce 0 rather
than an error. -/
theorem calc_c7_guards (p c w : ℚ) :
    (p = 0 → (calculateProfit p c w).grossMargin = 0) ∧
    (p ≤ 0 → (calculateProfit p c w).grossMargin = 0 ∧
      (calculateProfit p c w).netMargin = 0) ∧
    ((calculateProfit p c w).totalCost ≤ 0 → (calculateProfit p c w).roi = 0) := by
  refine ⟨?_, ?_, ?_⟩
  · intro hp
    subst hp
    show grossMargin 0 c w = 0
    unfold grossMargin
    rw [if_neg (lt_irrefl 0)]
  · intro hp
    constructor
    · show grossMargin p c w = 0
      unfold grossMargin
      rw [if_neg (not_lt.mpr hp)]
    · show netMargin p c w = 0
      unfold netMargin
      have h1 : weightedRevenue p ≤ 0 := by
        unfold weightedRevenue successRate returnRate
        have h9 : (1 - (0.10 : ℚ)) = 9/10 := by norm_num
        rw [h9]
        nlinarith
      rw [if_neg (not_lt.mpr h1)]
  · intro ht
    have ht' : totalCost p c w ≤ 0 := ht
    show roi p c w = 0
    unfold roi
    rw [if_neg (not_lt.mpr ht')]

/-- C7 (witness): at price=0, cost=−10, weight=0 all three guards fire and
all three ratios are 0. -/
theorem calc_c7_witness :
    (calculateProfit 0 (-10) 0).grossMargin = 0 ∧
    (calculateProfit 0 (-10) 0).netMargin = 0 ∧
    (calculateProfit 0 (-10) 0).roi = 0 :=
  ⟨(calc_c7_guards 0 (-10) 0).1 rfl,
   ((calc_c7_guards 0 (-10) 0).2.1 (le_refl 0)).2,
   (calc_c7_guards 0 (-10) 0).2.2
     (by norm_num [calculateProfit, totalCost, platformFee, taxFee, opFee,
       boxFee, shippingFee])⟩

/-- C8: `parseWeightToGrams` resolves units with priority kg/公斤 (×1000)
before 斤 (×500); when the normalized string has no `g` and no `斤` it
applies the magnitude heuristic (numbers below 10 are multiplied by 1000,
numbers from 10 up pass unchanged); and the five documented examples hold:
"0.5kg" ↦ 500, "1斤" ↦ 500, "3" ↦ 3000, "500g" ↦ 500, "" ↦ 0. -/
theorem weight_c8_units :
    (∀ s : String,
      (containsL (jsTrim (lowerL s.data)) ("kg".data) ||
       containsL (jsTrim (lowerL s.data)) ("公斤".data)) = true →
      parseWeightToGrams (.str s) = kgBranch s) ∧
    (∀ s : String,
      (containsL (jsTrim (lowerL s.data)) ("kg".data) ||
       containsL (jsTrim (lowerL s.data)) ("公斤".data)) = false →
      containsL (jsTrim (lowerL s.data)) ("斤".data) = true →
      parseWeightToGrams (.str s) = jinBranch s) ∧
    (∀ s : String,
      (containsL (jsTrim (lowerL s.data)) ("kg".data) ||
       containsL (jsTrim (lowerL s.data)) ("公斤".data)) = false →
      containsL (jsTrim (lowerL s.data)) ("斤".data) = false →
      containsL (jsTrim (lowerL s.data)) (['g']) = false →
      parseWeightToGrams (.str s) = heuristicBranch s) ∧
    parseWeightToGrams (.str "0.5kg") = some 500 ∧
    parseWeightToGrams (.str "1斤") = some 500 ∧
    parseWeightToGrams (.str "3") = some 3000 ∧
    parseWeightToGrams (.str "500g") = some 500 ∧
    parseWeightToGrams (.str "") = some 0 := by
  have hbody : ∀ s : String, truthy (.str s) = true →
      parseWeightToGrams (.str s) =
        (match firstNumToken (jsTrim (lowerL s.data)) with
        | none => some 0
        | some tk =>
            let n := parseDecimalToken tk
            if containsL (jsTrim (lowerL s.data)) ("kg".data) ||
               containsL (jsTrim (lowerL s.data)) ("公斤".data) then
              n.map (fun q => q * 1000)
            else if containsL (jsTrim (lowerL s.data)) ("斤".data) then
              n.map (fun q => q * 500)
            else if !containsL (jsTrim (lowerL s.data)) (['g']) &&
                    !containsL (jsTrim (lowerL s.data)) ("斤".data) then
              match n with
              | none => none
              | some q => some (if q < 10 then q * 1000 else q)
            else n) := by
    intro s ht
    unfold parseWeightToGrams
    rw [ht]
    rfl
  have hempty : ∀ s : String, truthy (.str s) = false → s.data = [] := by
    intro s ht
    unfold truthy at ht
    rw [Bool.not_eq_false'] at ht
    exact List.isEmpty_iff.mp ht
  refine ⟨?_, ?_, ?_, ?_, ?_, ?_, ?_, rfl⟩
  · intro s h
    cases ht : truthy (.str s) with
    | false =>
        rw [hempty s ht] at h
        cases h
    | true =>
        rw [hbody s ht]
        unfold kgBranch
        cases htk : firstNumToken (jsTrim (lowerL s.data)) with
        | none => rfl
        | some tk => simp only [h, if_pos]
  · intro s h h2
    cases ht : truthy (.str s) with
    | false =>
        rw [hempty s ht] at h2
        cases h2
    | true =>
        rw [hbody s ht]
        unfold jinBranch
        cases htk : firstNumToken (jsTrim (lowerL s.data)) with
        | none => rfl
        | some tk => simp only [h, h2, Bool.false_eq_true, if_false, if_pos]
  · intro s h h2 h3
    cases ht : truthy (.str s) with
    | false =>
        have hd := hempty s ht
        unfold parseWeightToGrams heuristicBranch
        rw [ht, hd]
        rfl
    | true =>
        rw [hbody s ht]
        unfold heuristicBranch
        cases htk : firstNumToken (jsTrim (lowerL s.data)) with
        | none => rfl
        | some tk =>
            simp only [h, h2, h3, Bool.false_eq_true, if_false,
              Bool.not_false, Bool.true_and, if_true]
  · show (some ((0:ℚ) + (5:ℚ)/10^1)).map (fun q => q * 1000) = some 500
    simp only [Option.map_some']
    norm_num
  · show (some ((1:ℚ))).map (fun q => q * 500) = some 500
    simp only [Option.map_some']
    norm_num
  · show some (if (3:ℚ) < 10 then (3:ℚ) * 1000 else 3) = some 3000
    norm_num
  · show some ((500:ℚ)) = some 500
    rfl

/-- C8 (witness): the three unit-priority clauses applied to the concrete
inputs "0.5kg", "1斤" and "3". -/
theorem weight_c8_witness :
    parseWeightToGrams (.str "0.5kg") = kgBranch "0.5kg" ∧
    parseWeightToGrams (.str "1斤") = jinBranch "1斤" ∧
    parseWeightToGrams (.str "3") = heuristicBranch "3" :=
  ⟨weight_c8_units.1 "0.5kg" (by decide),
   weight_c8_units.2.1 "1斤" (by decide) (by decide),
   weight_c8_units.2.2.1 "3" (by decide) (by decide) (by decide)⟩

/-- C9: whenever some header's lowercase form contains "brand" or "品牌",
`findBrandKey` returns a header; the first header whose trimmed lowercase
form is exactly a candidate keyword beats every substring-only match; and
when both passes fail the result is `none`. -/
theorem brand_c9_spec (hs : List String) :
    ((∃ h ∈ hs, containsL (lowerL h.data) ("brand".data) = true ∨
        containsL (lowerL h.data) ("品牌".data) = true) →
      (findBrandKey hs).isSome = true) ∧
    (∀ h : String, hs.find? isExactBrand = some h → findBrandKey hs = some h) ∧
    (hs.find? isExactBrand = none → hs.find? isPartialBrand = none →
      findBrandKey hs = none) := by
  refine ⟨?_, ?_, ?_⟩
  · rintro ⟨h, hmem, hc⟩
    have hp : isPartialBrand h = true := by
      unfold isPartialBrand
      rw [List.any_eq_true]
      rcases hc with hc | hc
      · exact ⟨"brand", by simp [brandCandidates], hc⟩
      · exact ⟨"品牌", by simp [brandCandidates], hc⟩
    unfold findBrandKey
    cases hfe : hs.find? isExactBrand with
    | some x => rfl
    | none =>
        show (hs.find? isPartialBrand).isSome = true
        exact find?_isSome_of_mem _ hmem hp
  · intro h hf
    unfold findBrandKey
    rw [hf]
  · intro h1 h2
    unfold findBrandKey
    rw [h1, h2]

/-- C9 (witness): the existence clause and the exact pass at `["品牌"]`,
and the double-miss clause at `["颜色"]`. -/
theorem brand_c9_witness :
    (findBrandKey ["品牌"]).isSome = true ∧
    findBrandKey ["品牌"] = some "品牌" ∧
    findBrandKey ["颜色"] = none :=
  ⟨(brand_c9_spec ["品牌"]).1 ⟨"品牌", by simp, Or.inr (by decide)⟩,
   (brand_c9_spec ["品牌"]).2.1 "品牌" (by decide),
   (brand_c9_spec ["颜色"]).2.2 (by decide) (by decide)⟩

/-- C3 (counterexample): two headers `A`, `B` whose values both yield
extractable URLs, all scores at or below the threshold 10.  The code
returns `B` (first in score-descending order, scores 0 vs −30), while the
claim's "first header in the sheet's original order whose value yields a
URL" is `A`. -/
theorem imageKey_c3_counterexample :
    (candsOf rowC3 ["A", "B"]).all (fun c => decide (c.score ≤ 10)) = true ∧
    findImageKey ["A", "B"] rowC3 = some "B" ∧
    (["A", "B"].find? (fun h => extractTruthy (mkCand rowC3 h))) = some "A" ∧
    (("A" : String) == "B") = false := by
  exact ⟨by decide, by decide, by decide, by decide⟩

/-- C3 (amended): when no candidate's score exceeds the threshold 10,
`findImageKey` falls back to the first candidate *in score-descending
order* (ties keeping original order) whose value yields an extractable
URL — the JS sort is in place, so the fallback scan runs over the sorted
array, not the original header order — and returns none when no value
yields a URL. -/
theorem imageKey_c3_amended (hs : List String) (row : ProductRow)
    (hlow : ∀ c ∈ candsOf row hs, c.score ≤ 10) :
    findImageKey hs row = fallbackKey (sortCands (candsOf row hs)) ∧
    ((∀ c ∈ candsOf row hs, extractTruthy c = false) →
      findImageKey hs row = none) := by
  have hmain : findImageKey hs row = fallbackKey (sortCands (candsOf row hs)) := by
    unfold findImageKey
    by_cases he : hs.isEmpty
    · rw [if_pos he]
      have h0 : hs = [] := List.isEmpty_iff.mp he
      subst h0
      rfl
    · rw [if_neg he]
      cases hh : (sortCands (candsOf row hs)).head? with
      | none => rfl
      | some best =>
          have hb : best.score ≤ 10 :=
            hlow best (mem_sortCands.mp (mem_of_head?_cand hh))
          show (if best.score > 10 then some best.key
              else fallbackKey (sortCands (candsOf row hs))) =
            fallbackKey (sortCands (candsOf row hs))
          rw [if_neg (by omega : ¬ best.score > 10)]
  refine ⟨hmain, ?_⟩
  intro hall
  rw [hmain]
  unfold fallbackKey
  have hnone : (sortCands (candsOf row hs)).find? extractTruthy = none := by
    rw [List.find?_eq_none]
    intro x hx
    simp [hall x (mem_sortCands.mp hx)]
  rw [hnone]
  rfl

/-- C3 (witness): the amended fallback equation evaluated at the concrete
two-header row, where the code indeed picks the sorted-order first
extractable candidate `B`. -/
theorem imageKey_c3_witness :
    findImageKey ["A", "B"] rowC3 =
      fallbackKey (sortCands (candsOf rowC3 ["A", "B"])) ∧
    fallbackKey (sortCands (candsOf rowC3 ["A", "B"])) = some "B" :=
  ⟨(imageKey_c3_amended ["A", "B"] rowC3 (by decide)).1, by decide⟩

/-- C4 (counterexample): the cell value `"data:image/x.png"` extracts to a
URL that both ends in a recognized image extension and contains the
`data:image` marker, so it earns the +20, the +30 *and* the +40 — the two
additional bonuses are not mutually exclusive (content score 90). -/
theorem contentScore_c4_counterexample :
    extractFirstImageUrl (.str "data:image/x.png") =
      some ("data:image/x.png".data) ∧
    hasImgExtQ ("data:image/x.png".data) = true ∧
    containsL ("data:image/x.png".data) ("data:image".data) = true ∧
    contentScore ("data:image/x.png".data) = 90 := by
  exact ⟨by decide, by decide, by decide, by decide⟩

/-- C4 (amended): the extension and base64 bonuses are independent
additions on top of the +20, so a value with an extractable URL has
content score 20, 50, 60 or 90 — 90 (both bonuses at once) included. -/
theorem contentScore_c4_amended (val u : List Char)
    (h : extractFirstImageUrl (.str (String.mk val)) = some u) :
    contentScore val = 20 ∨ contentScore val = 50 ∨ contentScore val = 60 ∨
      contentScore val = 90 := by
  have e : contentScore val =
      20 + (if hasImgExtQ u then 30 else 0) +
        (if containsL u ("data:image".data) then 40 else 0) := by
    unfold contentScore
    rw [h]
  rw [e]
  by_cases h1 : hasImgExtQ u
  · by_cases h2 : containsL u ("data:image".data)
    · rw [if_pos h1, if_pos h2]
      right; right; right; decide
    · rw [if_pos h1, if_neg h2]
      right; left; decide
  · by_cases h2 : containsL u ("data:image".data)
    · rw [if_neg h1, if_pos h2]
      right; right; left; decide
    · rw [if_neg h1, if_neg h2]
      left; decide

/-- C4 (witness): the amended disjunction at the both-bonuses input. -/
theorem contentScore_c4_witness :
    contentScore ("data:image/x.png".data) = 20 ∨
    contentScore ("data:image/x.png".data) = 50 ∨
    contentScore ("data:image/x.png".data) = 60 ∨
    contentScore ("data:image/x.png".data) = 90 :=
  contentScore_c4_amended ("data:image/x.png".data) ("data:image/x.png".data)
    (by decide)

/-- C10: whenever `findImageKey` returns a header it is one of the input
headers, and the empty header list yields `none`. -/
theorem imageKey_c10_invariant :
    (∀ (hs : List String) (row : ProductRow) (k : String),
      findImageKey hs row = some k → k ∈ hs) ∧
    (∀ row : ProductRow, findImageKey [] row = none) := by
  constructor
  · intro hs row k h
    unfold findImageKey at h
    by_cases he : hs.isEmpty
    · rw [if_pos he] at h
      cases h
    · rw [if_neg he] at h
      cases hh : (sortCands (candsOf row hs)).head? with
      | none =>
          rw [hh] at h
          exact fallbackKey_key_mem h
      | some best =>
          rw [hh] at h
          have h' : (if best.score > 10 then some best.key
              else fallbackKey (sortCands (candsOf row hs))) = some k := h
          by_cases hb : best.score > 10
          · rw [if_pos hb] at h'
            injection h' with h'
            subst h'
            exact key_mem_of_mem_candsOf
              (mem_sortCands.mp (mem_of_head?_cand hh))
          · rw [if_neg hb] at h'
            exact fallbackKey_key_mem h'
  · intro row
    rfl

/-- C10 (witness): at a row with a strong image column the result is a
member of the header list. -/
theorem imageKey_c10_witness :
    findImageKey ["图片链接"] rowC10 = some "图片链接" ∧
    "图片链接" ∈ ["图片链接"] :=
  ⟨by decide, imageKey_c10_invariant.1 ["图片链接"] rowC10 "图片链接" (by decide)⟩

end ECommEngine
